import Mathlib

/-!
# Rent-vs-buy projection engine: a shallow embedding

This file embeds the financial projection engine of the rent-or-mortgage
calculator (the `useMemo` computation of `CalculatorResults`) in Lean.
JavaScript numbers are modelled as exact rationals (`ℚ`); `Math.round` is
modelled as `⌊x + 1/2⌋` (round half toward positive infinity, as in JS);
the mutable local variables of the year loop become an explicit
`SimState` record threaded through `yearStep`, and the 12-month mortgage
sub-loop (with its early break once the balance is exhausted) becomes the
fuelled recursion `monthLoop`.
-/

set_option autoImplicit false

namespace RentOrMortgage

/-- The input record `CalculatorInputs` (homePrice, downPaymentPercent,
interestRate, loanTerm, monthlyRent, ownershipCostsRate, marketGrowthRate,
investmentReturn, yearsToCompare).  The two year counts are integers. -/
structure Inputs where
  homePrice : ℚ
  downPaymentPercent : ℚ
  interestRate : ℚ
  loanTerm : ℕ
  monthlyRent : ℚ
  ownershipCostsRate : ℚ
  marketGrowthRate : ℚ
  investmentReturn : ℚ
  yearsToCompare : ℕ
deriving DecidableEq, Repr

/-- `Math.round` of JavaScript: round half toward positive infinity,
i.e. the floor of `x + 1/2`. -/
def jsRound (x : ℚ) : ℤ := ⌊x + 1 / 2⌋

/-- `downPayment = (homePrice * downPaymentPercent) / 100`. -/
def downPayment (i : Inputs) : ℚ := i.homePrice * i.downPaymentPercent / 100

/-- `loanAmount = homePrice - downPayment`. -/
def loanAmount (i : Inputs) : ℚ := i.homePrice - downPayment i

/-- `monthlyInterestRate = interestRate / 100 / 12`. -/
def monthlyInterestRate (i : Inputs) : ℚ := i.interestRate / 100 / 12

/-- `numberOfPayments = loanTerm * 12`. -/
def numberOfPayments (i : Inputs) : ℕ := i.loanTerm * 12

/-- The level monthly payment: straight-line when the monthly rate is zero,
otherwise the annuity expression exactly as written in the source. -/
def monthlyMortgage (i : Inputs) : ℚ :=
  if monthlyInterestRate i = 0 then
    loanAmount i / (numberOfPayments i : ℚ)
  else
    loanAmount i *
        (monthlyInterestRate i *
          (1 + monthlyInterestRate i) ^ numberOfPayments i) /
      ((1 + monthlyInterestRate i) ^ numberOfPayments i - 1)

/-- One entry of `yearlyData`. -/
structure YearData where
  year : ℕ
  buyCost : ℤ
  rentCost : ℤ
deriving DecidableEq, Repr

/-- The mutable locals of the year loop, as one record. -/
structure SimState where
  cumulativeBuyCost : ℚ
  cumulativeRentCost : ℚ
  investmentBalance : ℚ
  currentRent : ℚ
  currentHomeValue : ℚ
  remainingLoanBalance : ℚ
  totalMortgagePaid : ℚ
  totalOwnershipCostsPaid : ℚ
deriving DecidableEq, Repr

/-- The initial values of the loop locals. -/
def initState (i : Inputs) : SimState :=
  { cumulativeBuyCost := downPayment i
    cumulativeRentCost := 0
    investmentBalance := downPayment i
    currentRent := i.monthlyRent
    currentHomeValue := i.homePrice
    remainingLoanBalance := loanAmount i
    totalMortgagePaid := 0
    totalOwnershipCostsPaid := 0 }

/-- The effect of one month of the mortgage sub-loop on the balance alone:
no change once the balance is ≤ 0 (the `break`), otherwise subtract the
principal actually paid, `min (payment - interest) balance`. -/
def monthStep (M r bal : ℚ) : ℚ :=
  if bal ≤ 0 then bal else bal - min (M - bal * r) bal

/-- The monthly mortgage sub-loop with `k` months of fuel: returns
`(annualMortgagePaid, remainingLoanBalance)`.  Each month: interest =
balance × rate, principal = payment − interest, the principal actually
paid is capped at the balance, and the loop breaks once the balance
reaches 0. -/
def monthLoop (M r : ℚ) : ℕ → ℚ → ℚ × ℚ
  | 0, bal => (0, bal)
  | k + 1, bal =>
    if bal ≤ 0 then (0, bal)
    else
      let interestPayment := bal * r
      let principalPayment := M - interestPayment
      let actualPrincipalPayment := min principalPayment bal
      let actualPayment := actualPrincipalPayment + interestPayment
      let rest := monthLoop M r k (bal - actualPrincipalPayment)
      (actualPayment + rest.1, rest.2)

/-- One iteration of the year loop (`year > 0` branch): grow the home
value, run 12 months of mortgage, charge ownership costs on the grown
value, accrue a year of rent, compound the investment balance, and grow
the rent for next year. -/
def yearStep (i : Inputs) (s : SimState) : SimState :=
  let newHomeValue := s.currentHomeValue * (1 + i.marketGrowthRate / 100)
  let mres := monthLoop (monthlyMortgage i) (monthlyInterestRate i) 12
    s.remainingLoanBalance
  let annualMortgagePaid := mres.1
  let annualOwnershipCosts := newHomeValue * i.ownershipCostsRate / 100
  let totalAnnualBuyCost := annualMortgagePaid + annualOwnershipCosts
  let annualRent := s.currentRent * 12
  { cumulativeBuyCost := s.cumulativeBuyCost + totalAnnualBuyCost
    cumulativeRentCost := s.cumulativeRentCost + annualRent
    investmentBalance := s.investmentBalance * (1 + i.investmentReturn / 100)
    currentRent := s.currentRent * (1 + i.marketGrowthRate / 100)
    currentHomeValue := newHomeValue
    remainingLoanBalance := mres.2
    totalMortgagePaid := s.totalMortgagePaid + annualMortgagePaid
    totalOwnershipCostsPaid := s.totalOwnershipCostsPaid + annualOwnershipCosts }

/-- The loop state after processing year `y` (year 0 applies no step). -/
def simState (i : Inputs) : ℕ → SimState
  | 0 => initState i
  | y + 1 => yearStep i (simState i y)

/-- The snapshot pushed onto `yearlyData` at the end of an iteration:
`buyCost = round(cumulativeBuyCost - equity)` with
`equity = currentHomeValue - remainingLoanBalance`, and
`rentCost = round(cumulativeRentCost - netInvestmentGain)` with
`netInvestmentGain = investmentBalance - initialInvestment`. -/
def mkSnapshot (i : Inputs) (year : ℕ) (s : SimState) : YearData :=
  { year := year
    buyCost := jsRound
      (s.cumulativeBuyCost - (s.currentHomeValue - s.remainingLoanBalance))
    rentCost := jsRound
      (s.cumulativeRentCost - (s.investmentBalance - downPayment i)) }

/-- `yearlyData`: one snapshot per year, years 0 through `yearsToCompare`. -/
def yearlyData (i : Inputs) : List YearData :=
  (List.range (i.yearsToCompare + 1)).map fun y => mkSnapshot i y (simState i y)

/-- `finalBuyCost`: `buyCost` of the last snapshot. -/
def finalBuyCost (i : Inputs) : ℤ := ((yearlyData i).getLastD ⟨0, 0, 0⟩).buyCost

/-- `finalRentCost`: `rentCost` of the last snapshot. -/
def finalRentCost (i : Inputs) : ℤ :=
  ((yearlyData i).getLastD ⟨0, 0, 0⟩).rentCost

/-- `difference = Math.abs(finalBuyCost - finalRentCost)`. -/
def difference (i : Inputs) : ℤ := |finalBuyCost i - finalRentCost i|

/-- `isBuyingCheaper = finalBuyCost < finalRentCost`. -/
def isBuyingCheaper (i : Inputs) : Bool := finalBuyCost i < finalRentCost i

/-- `equityBuilt = currentHomeValue - remainingLoanBalance` after the loop. -/
def equityBuilt (i : Inputs) : ℚ :=
  (simState i i.yearsToCompare).currentHomeValue -
    (simState i i.yearsToCompare).remainingLoanBalance

/-- `totalMortgagePaid` after the loop. -/
def totalMortgagePaid (i : Inputs) : ℚ :=
  (simState i i.yearsToCompare).totalMortgagePaid

/-- `totalOwnershipCostsPaid` after the loop. -/
def totalOwnershipCostsPaid (i : Inputs) : ℚ :=
  (simState i i.yearsToCompare).totalOwnershipCostsPaid

/-- `totalBuyCashOut = cumulativeBuyCost` after the loop. -/
def totalBuyCashOut (i : Inputs) : ℚ :=
  (simState i i.yearsToCompare).cumulativeBuyCost

/-- `totalRentPaid = cumulativeRentCost` after the loop. -/
def totalRentPaid (i : Inputs) : ℚ :=
  (simState i i.yearsToCompare).cumulativeRentCost

/-- `netInvestmentGain = finalNetInvestmentGain`, i.e.
`investmentBalance - initialInvestment` after the last iteration. -/
def netInvestmentGain (i : Inputs) : ℚ :=
  (simState i i.yearsToCompare).investmentBalance - downPayment i

/-- The level-payment formula exactly as the spec words it:
`payment = loanAmount * r * (1+r)^n / ((1+r)^n - 1)` with
`r = interestRate/100/12`, `n = loanTerm * 12` and
`loanAmount = homePrice - homePrice * downPaymentPercent / 100`.
Stated from the spec, for comparison with `monthlyMortgage`. -/
def annuityFormulaSpec (i : Inputs) : ℚ :=
  (i.homePrice - i.homePrice * i.downPaymentPercent / 100) *
      (i.interestRate / 100 / 12) *
      (1 + i.interestRate / 100 / 12) ^ (i.loanTerm * 12) /
    ((1 + i.interestRate / 100 / 12) ^ (i.loanTerm * 12) - 1)

/-- The repository's default inputs with a zero-year horizon. -/
def inpC1 : Inputs := ⟨400000, 20, 13 / 2, 30, 2000, 27 / 10, 3, 7, 0⟩

/-- A degenerate all-zero scenario: both final costs are 0 (a tie). -/
def exZero : Inputs := ⟨0, 0, 0, 1, 0, 0, 0, 0, 0⟩

/-- A tiny positive-rate scenario: 100% monthly rate, one-year loan. -/
def exRate : Inputs := ⟨100, 0, 1200, 1, 0, 0, 0, 0, 1⟩

/-- The spec's zero-rate scenario B: `loanAmount = 100000`, ten-year term. -/
def exZeroRate : Inputs := ⟨100000, 0, 0, 10, 0, 0, 0, 0, 1⟩

/-- The repository's default inputs over a two-year horizon. -/
def exTwo : Inputs := ⟨400000, 20, 13 / 2, 30, 2000, 2, 3, 7, 2⟩

theorem simState_zero (i : Inputs) : simState i 0 = initState i := rfl

theorem simState_succ (i : Inputs) (y : ℕ) :
    simState i (y + 1) = yearStep i (simState i y) := rfl

theorem yearlyData_getLastD (i : Inputs) (d : YearData) :
    (yearlyData i).getLastD d =
      mkSnapshot i i.yearsToCompare (simState i i.yearsToCompare) := by
  unfold yearlyData
  rw [List.range_succ, List.map_append, List.map_singleton,
    List.getLastD_concat]

theorem yearlyData_head (i : Inputs) :
    (yearlyData i).head? = some (mkSnapshot i 0 (initState i)) := by
  unfold yearlyData
  rw [List.range_succ_eq_map]
  simp [simState]

theorem snapshot_init (i : Inputs) :
    mkSnapshot i 0 (initState i) = ⟨0, 0, 0⟩ := by
  have h1 : downPayment i - (i.homePrice - loanAmount i) = 0 := by
    unfold loanAmount; ring
  have h2 : (0 : ℚ) - (downPayment i - downPayment i) = 0 := by ring
  simp only [mkSnapshot, initState, h1, h2]
  norm_num [jsRound]

/-- C1, counterexample: at the repository's default inputs with
`yearsToCompare = 0` (down payment 80000), the first snapshot of
`yearlyData` is `{ year := 0, buyCost := 0, rentCost := 0 }`, not
`{ year := 0, buyCost := round (downPayment) = 80000, rentCost := 0 }`:
the snapshot subtracts equity, and the initial equity equals the down
payment. -/
theorem c1_counterexample :
    ¬ ((yearlyData inpC1).head? =
      some { year := 0, buyCost := jsRound (downPayment inpC1),
             rentCost := 0 }) := by
  have hdp : downPayment inpC1 = 80000 := by norm_num [downPayment, inpC1]
  have hjr : jsRound (80000 : ℚ) = 80000 := by norm_num [jsRound]
  rw [yearlyData_head, snapshot_init, hdp, hjr]
  simp

/-- C1 (amended): for every input, the first snapshot of `yearlyData` is
`{ year := 0, buyCost := 0, rentCost := 0 }` — the down-payment outlay is
exactly offset by the initial equity (which equals the down payment), so
year 0's `buyCost` is 0, and its `rentCost` is 0; when
`yearsToCompare = 0` the single entry of the output equals exactly this
snapshot. -/
theorem c1_first_snapshot (i : Inputs) :
    (yearlyData i).head? = some ⟨0, 0, 0⟩ ∧
    (i.yearsToCompare = 0 →
      yearlyData i = [({ year := 0, buyCost := 0, rentCost := 0 } : YearData)]) := by
  constructor
  · rw [yearlyData_head, snapshot_init]
  · intro h
    unfold yearlyData
    rw [h]
    simp [List.range_succ, simState, snapshot_init]

/-- C1 witness: at the default inputs with a zero-year horizon, the whole
output sequence is the single snapshot `{0, 0, 0}`. -/
theorem c1_witness :
    yearlyData inpC1 = [({ year := 0, buyCost := 0, rentCost := 0 } : YearData)] :=
  (c1_first_snapshot inpC1).2 rfl

/-- C2: for every input, `yearlyData` has exactly `yearsToCompare + 1`
entries, the entry at index `j` carries `year = j`, and when
`yearsToCompare = 0` the output is the single year-0 snapshot of the
untouched initial state (no mortgage, ownership or rent accrual). -/
theorem c2_yearlyData_shape (i : Inputs) :
    (yearlyData i).length = i.yearsToCompare + 1 ∧
    (∀ j : ℕ, ∀ h : j < (yearlyData i).length,
      ((yearlyData i).get ⟨j, h⟩).year = j) ∧
    (i.yearsToCompare = 0 → yearlyData i = [mkSnapshot i 0 (initState i)]) := by
  refine ⟨by simp [yearlyData], ?_, ?_⟩
  · intro j h
    simp [yearlyData, mkSnapshot]
  · intro h
    unfold yearlyData
    rw [h]
    simp [List.range_succ, simState]

/-- C2 witness: at the default inputs with a zero-year horizon, the output
has length 1 = yearsToCompare + 1 and is the snapshot of the initial
state. -/
theorem c2_witness :
    (yearlyData inpC1).length = 1 ∧
    yearlyData inpC1 = [mkSnapshot inpC1 0 (initState inpC1)] :=
  ⟨(c2_yearlyData_shape inpC1).1, (c2_yearlyData_shape inpC1).2.2 rfl⟩

/-- C3: for every input with a nonzero interest rate, `monthlyMortgage`
equals the fixed-rate annuity formula
`loanAmount * r * (1+r)^n / ((1+r)^n - 1)` with `r = interestRate/100/12`,
`n = loanTerm * 12`, `loanAmount = homePrice - homePrice *
downPaymentPercent / 100`. -/
theorem c3_annuity_formula (i : Inputs) (h : i.interestRate ≠ 0) :
    monthlyMortgage i = annuityFormulaSpec i := by
  have hr : monthlyInterestRate i ≠ 0 := by
    unfold monthlyInterestRate
    intro h0
    apply h
    field_simp at h0
    exact h0
  unfold monthlyMortgage annuityFormulaSpec
  rw [if_neg hr]
  unfold loanAmount downPayment monthlyInterestRate numberOfPayments
  ring

/-- C3 witness: the annuity identity at the positive-rate scenario. -/
theorem c3_witness : monthlyMortgage exRate = annuityFormulaSpec exRate :=
  c3_annuity_formula exRate (by show (1200 : ℚ) ≠ 0; norm_num)

/-- C4: at a zero interest rate the engine takes the straight-line branch
and `monthlyMortgage = loanAmount / (loanTerm * 12)`. -/
theorem c4_zero_rate (i : Inputs) (h : i.interestRate = 0) :
    monthlyMortgage i = loanAmount i / ((i.loanTerm : ℚ) * 12) := by
  have hr : monthlyInterestRate i = 0 := by
    unfold monthlyInterestRate
    rw [h]
    norm_num
  unfold monthlyMortgage
  rw [if_pos hr]
  unfold numberOfPayments
  push_cast
  ring

/-- C4 witness: scenario B of the spec — `interestRate = 0`,
`loanAmount = 100000`, `loanTerm = 10` gives exactly `100000 / 120`. -/
theorem c4_witness : monthlyMortgage exZeroRate = 100000 / 120 := by
  have h := c4_zero_rate exZeroRate rfl
  rw [h]
  simp [exZeroRate, loanAmount, downPayment]
  norm_num

theorem investmentBalance_formula (i : Inputs) (y : ℕ) :
    (simState i y).investmentBalance =
      downPayment i * (1 + i.investmentReturn / 100) ^ y := by
  induction y with
  | zero => simp [simState, initState]
  | succ y ih =>
    simp only [simState_succ, yearStep]
    rw [ih]
    ring

theorem currentHomeValue_formula (i : Inputs) (y : ℕ) :
    (simState i y).currentHomeValue =
      i.homePrice * (1 + i.marketGrowthRate / 100) ^ y := by
  induction y with
  | zero => simp [simState, initState]
  | succ y ih =>
    simp only [simState_succ, yearStep]
    rw [ih]
    ring

theorem currentRent_formula (i : Inputs) (y : ℕ) :
    (simState i y).currentRent =
      i.monthlyRent * (1 + i.marketGrowthRate / 100) ^ y := by
  induction y with
  | zero => simp [simState, initState]
  | succ y ih =>
    simp only [simState_succ, yearStep]
    rw [ih]
    ring

/-- C6: the renter's investment balance starts at the down payment and is
compounded by `investmentReturn` exactly once per simulated year (no
cash-flow differences are swept in), so the `netInvestmentGain` output is
`downPayment * ((1 + investmentReturn/100)^yearsToCompare - 1)`. -/
theorem c6_investment_growth (i : Inputs) :
    (∀ y : ℕ, (simState i y).investmentBalance =
      downPayment i * (1 + i.investmentReturn / 100) ^ y) ∧
    netInvestmentGain i =
      downPayment i * ((1 + i.investmentReturn / 100) ^ i.yearsToCompare - 1) := by
  refine ⟨investmentBalance_formula i, ?_⟩
  unfold netInvestmentGain
  rw [investmentBalance_formula]
  ring

/-- C7: in each simulated year `y + 1 ≤ yearsToCompare`, the ownership
cost accrued — both as the increment of `totalOwnershipCostsPaid` and as
the non-mortgage part of the increment of `cumulativeBuyCost` — equals
the already-appreciated home value times `ownershipCostsRate / 100`,
i.e. `homePrice * (1 + marketGrowthRate/100)^(y+1) * ownershipCostsRate
/ 100`: the appreciation step precedes the ownership-cost calculation. -/
theorem c7_ownership_costs (i : Inputs) (y : ℕ)
    (_h : y + 1 ≤ i.yearsToCompare) :
    (simState i (y + 1)).totalOwnershipCostsPaid -
        (simState i y).totalOwnershipCostsPaid =
      i.homePrice * (1 + i.marketGrowthRate / 100) ^ (y + 1) *
        i.ownershipCostsRate / 100 ∧
    (simState i (y + 1)).cumulativeBuyCost - (simState i y).cumulativeBuyCost =
      ((simState i (y + 1)).totalMortgagePaid - (simState i y).totalMortgagePaid) +
        i.homePrice * (1 + i.marketGrowthRate / 100) ^ (y + 1) *
          i.ownershipCostsRate / 100 := by
  have hv := currentHomeValue_formula i y
  simp only [simState_succ, yearStep]
  rw [hv]
  constructor <;> ring

/-- C7 witness: year 1 of the two-year default scenario. -/
theorem c7_witness :
    (simState exTwo 1).totalOwnershipCostsPaid -
        (simState exTwo 0).totalOwnershipCostsPaid =
      exTwo.homePrice * (1 + exTwo.marketGrowthRate / 100) ^ 1 *
        exTwo.ownershipCostsRate / 100 :=
  (c7_ownership_costs exTwo 0 (by norm_num [exTwo])).1

/-- C8: `isBuyingCheaper` holds exactly when `finalBuyCost` is strictly
below `finalRentCost`; a tie reports `false` (renting at least as good);
`difference` is the absolute difference of the two final costs. -/
theorem c8_comparison (i : Inputs) :
    (isBuyingCheaper i = true ↔ finalBuyCost i < finalRentCost i) ∧
    (finalBuyCost i = finalRentCost i → isBuyingCheaper i = false) ∧
    difference i = |finalBuyCost i - finalRentCost i| := by
  refine ⟨?_, ?_, rfl⟩
  · unfold isBuyingCheaper
    exact decide_eq_true_iff
  · intro h
    unfold isBuyingCheaper
    rw [h]
    simp

/-- C8 witness: the all-zero scenario is an exact tie and reports
`isBuyingCheaper = false`. -/
theorem c8_witness :
    finalBuyCost exZero = finalRentCost exZero ∧
      isBuyingCheaper exZero = false := by
  have h0 : exZero.yearsToCompare = 0 := rfl
  have hb : finalBuyCost exZero = 0 := by
    unfold finalBuyCost
    rw [yearlyData_getLastD, h0, simState_zero, snapshot_init]
  have hr : finalRentCost exZero = 0 := by
    unfold finalRentCost
    rw [yearlyData_getLastD, h0, simState_zero, snapshot_init]
  exact ⟨hb.trans hr.symm, (c8_comparison exZero).2.1 (hb.trans hr.symm)⟩

/-- C10: after every simulated year, `cumulativeBuyCost = downPayment +
totalMortgagePaid + totalOwnershipCostsPaid`; in particular the
`totalBuyCashOut` output satisfies this identity exactly. -/
theorem c10_cash_out_identity (i : Inputs) :
    (∀ y : ℕ, (simState i y).cumulativeBuyCost =
      downPayment i + (simState i y).totalMortgagePaid +
        (simState i y).totalOwnershipCostsPaid) ∧
    totalBuyCashOut i =
      downPayment i + totalMortgagePaid i + totalOwnershipCostsPaid i := by
  have key : ∀ y : ℕ, (simState i y).cumulativeBuyCost =
      downPayment i + (simState i y).totalMortgagePaid +
        (simState i y).totalOwnershipCostsPaid := by
    intro y
    induction y with
    | zero => simp [simState, initState]
    | succ y ih =>
      simp only [simState_succ, yearStep]
      rw [ih]
      ring
  exact ⟨key, key i.yearsToCompare⟩

theorem simState_update (i : Inputs) (n y : ℕ) :
    simState { i with yearsToCompare := n } y = simState i y := by
  induction y with
  | zero => rfl
  | succ y ih =>
    rw [simState_succ, simState_succ, ih]
    rfl

/-- C9: with `marketGrowthRate ≥ 0` (and nonnegative starting price and
rent, per the spec's input preconditions), home value and rent never
decrease from one year to the next, and raising `yearsToCompare` by one
never decreases the cumulative rent paid. -/
theorem c9_monotonicity (i : Inputs) (hg : 0 ≤ i.marketGrowthRate)
    (hhp : 0 ≤ i.homePrice) (hmr : 0 ≤ i.monthlyRent) :
    (∀ y : ℕ, (simState i y).currentHomeValue ≤
      (simState i (y + 1)).currentHomeValue) ∧
    (∀ y : ℕ, (simState i y).currentRent ≤ (simState i (y + 1)).currentRent) ∧
    totalRentPaid i ≤
      totalRentPaid { i with yearsToCompare := i.yearsToCompare + 1 } := by
  have hq1 : (1 : ℚ) ≤ 1 + i.marketGrowthRate / 100 := by
    have := div_nonneg hg (by norm_num : (0 : ℚ) ≤ 100)
    linarith
  have hq0 : (0 : ℚ) ≤ 1 + i.marketGrowthRate / 100 :=
    le_trans zero_le_one hq1
  refine ⟨?_, ?_, ?_⟩
  · intro y
    rw [currentHomeValue_formula, currentHomeValue_formula]
    exact mul_le_mul_of_nonneg_left (pow_le_pow_right₀ hq1 (Nat.le_succ y)) hhp
  · intro y
    rw [currentRent_formula, currentRent_formula]
    exact mul_le_mul_of_nonneg_left (pow_le_pow_right₀ hq1 (Nat.le_succ y)) hmr
  · have hrent : 0 ≤ (simState i i.yearsToCompare).currentRent := by
      rw [currentRent_formula]
      exact mul_nonneg hmr (pow_nonneg hq0 _)
    have hstep : totalRentPaid { i with yearsToCompare := i.yearsToCompare + 1 } =
        (simState i i.yearsToCompare).cumulativeRentCost +
          (simState i i.yearsToCompare).currentRent * 12 := by
      unfold totalRentPaid
      rw [show ({ i with yearsToCompare := i.yearsToCompare + 1 } :
          Inputs).yearsToCompare = i.yearsToCompare + 1 from rfl]
      rw [simState_update, simState_succ]
      simp only [yearStep]
    have h12 : 0 ≤ (simState i i.yearsToCompare).currentRent * 12 :=
      mul_nonneg hrent (by norm_num)
    rw [hstep]
    unfold totalRentPaid
    linarith

/-- C9 witness: the two-year default scenario has nonnegative growth, so
extending the horizon by one year cannot decrease `totalRentPaid`. -/
theorem c9_witness :
    totalRentPaid exTwo ≤
      totalRentPaid { exTwo with yearsToCompare := exTwo.yearsToCompare + 1 } :=
  (c9_monotonicity exTwo (by norm_num [exTwo]) (by norm_num [exTwo])
    (by norm_num [exTwo])).2.2

theorem monthStep_nonpos {M r bal : ℚ} (h : bal ≤ 0) : monthStep M r bal = bal :=
  if_pos h

theorem monthLoop_snd (M r : ℚ) (k : ℕ) (bal : ℚ) :
    (monthLoop M r k bal).2 = (monthStep M r)^[k] bal := by
  induction k generalizing bal with
  | zero => rfl
  | succ k ih =>
    by_cases hb : bal ≤ 0
    · have h1 : monthLoop M r (k + 1) bal = (0, bal) := by
        simp only [monthLoop, if_pos hb]
      rw [h1, Function.iterate_fixed (monthStep_nonpos hb)]
    · have h1 : (monthLoop M r (k + 1) bal).2 =
          (monthLoop M r k (bal - min (M - bal * r) bal)).2 := by
        simp only [monthLoop, if_neg hb]
      have h2 : monthStep M r bal = bal - min (M - bal * r) bal := by
        simp only [monthStep, if_neg hb]
      rw [h1, ih, Function.iterate_succ_apply, h2]

theorem monthStep_bounds {M r bal : ℚ} (hM : bal * r ≤ M) (h0 : 0 ≤ bal) :
    0 ≤ monthStep M r bal ∧ monthStep M r bal ≤ bal := by
  unfold monthStep
  by_cases hb : bal ≤ 0
  · rw [if_pos hb]
    exact ⟨h0, le_refl bal⟩
  · rw [if_neg hb]
    push_neg at hb
    constructor
    · have h1 : min (M - bal * r) bal ≤ bal := min_le_right _ _
      linarith
    · have h1 : 0 ≤ M - bal * r := by linarith
      have h2 : 0 ≤ min (M - bal * r) bal := le_min h1 h0
      linarith

theorem iterate_bal_bounds {M r L : ℚ} (hr : 0 ≤ r) (hL : 0 ≤ L)
    (hM : L * r ≤ M) (m : ℕ) :
    0 ≤ (monthStep M r)^[m] L ∧ (monthStep M r)^[m] L ≤ L := by
  induction m with
  | zero => exact ⟨hL, le_refl L⟩
  | succ m ih =>
    rw [Function.iterate_succ_apply']
    have hMb : ((monthStep M r)^[m] L) * r ≤ M :=
      le_trans (mul_le_mul_of_nonneg_right ih.2 hr) hM
    have hs := monthStep_bounds hMb ih.1
    exact ⟨hs.1, le_trans hs.2 ih.2⟩

theorem monthStep_closed {r L : ℚ} (hr : 0 < r) (hL : 0 ≤ L) {n : ℕ}
    (hn : 1 ≤ n) (j : ℕ) (hj : j < n) :
    monthStep (L * (r * (1 + r) ^ n) / ((1 + r) ^ n - 1)) r
        (L * ((1 + r) ^ n - (1 + r) ^ j) / ((1 + r) ^ n - 1)) =
      L * ((1 + r) ^ n - (1 + r) ^ (j + 1)) / ((1 + r) ^ n - 1) := by
  have hq1 : (1 : ℚ) < 1 + r := by linarith
  have hd : 0 < (1 + r) ^ n - 1 := by
    have := one_lt_pow₀ hq1 (by omega : n ≠ 0)
    linarith
  have hqj_le : (1 + r) ^ j ≤ (1 + r) ^ n :=
    pow_le_pow_right₀ hq1.le (le_of_lt hj)
  have hqj1_le : (1 + r) ^ (j + 1) ≤ (1 + r) ^ n :=
    pow_le_pow_right₀ hq1.le hj
  have hbal_nonneg :
      0 ≤ L * ((1 + r) ^ n - (1 + r) ^ j) / ((1 + r) ^ n - 1) :=
    div_nonneg (mul_nonneg hL (by linarith)) hd.le
  by_cases hb : L * ((1 + r) ^ n - (1 + r) ^ j) / ((1 + r) ^ n - 1) ≤ 0
  · have hbal0 : L * ((1 + r) ^ n - (1 + r) ^ j) / ((1 + r) ^ n - 1) = 0 :=
      le_antisymm hb hbal_nonneg
    rcases div_eq_zero_iff.mp hbal0 with hnum | hden
    · rcases mul_eq_zero.mp hnum with hL0 | hq0
      · rw [monthStep_nonpos hb, hL0]
        simp
      · exfalso
        have := pow_lt_pow_right₀ hq1 hj
        linarith
    · exact absurd hden (ne_of_gt hd)
  · push_neg at hb
    have hstep : monthStep (L * (r * (1 + r) ^ n) / ((1 + r) ^ n - 1)) r
          (L * ((1 + r) ^ n - (1 + r) ^ j) / ((1 + r) ^ n - 1)) =
        L * ((1 + r) ^ n - (1 + r) ^ j) / ((1 + r) ^ n - 1) -
          min (L * (r * (1 + r) ^ n) / ((1 + r) ^ n - 1) -
              L * ((1 + r) ^ n - (1 + r) ^ j) / ((1 + r) ^ n - 1) * r)
            (L * ((1 + r) ^ n - (1 + r) ^ j) / ((1 + r) ^ n - 1)) := by
      simp only [monthStep, if_neg (not_le.mpr hb)]
    have hq : L * ((1 + r) ^ n - (1 + r) ^ j) / ((1 + r) ^ n - 1) * (1 + r) -
          L * (r * (1 + r) ^ n) / ((1 + r) ^ n - 1) =
        L * ((1 + r) ^ n - (1 + r) ^ (j + 1)) / ((1 + r) ^ n - 1) := by
      field_simp
      ring
    have hnext : 0 ≤ L * ((1 + r) ^ n - (1 + r) ^ (j + 1)) / ((1 + r) ^ n - 1) :=
      div_nonneg (mul_nonneg hL (by linarith)) hd.le
    have h3 : 0 ≤ L * ((1 + r) ^ n - (1 + r) ^ j) / ((1 + r) ^ n - 1) * (1 + r) -
        L * (r * (1 + r) ^ n) / ((1 + r) ^ n - 1) := by
      rw [hq]
      exact hnext
    have h4 : L * ((1 + r) ^ n - (1 + r) ^ j) / ((1 + r) ^ n - 1) * (1 + r) =
        L * ((1 + r) ^ n - (1 + r) ^ j) / ((1 + r) ^ n - 1) +
          L * ((1 + r) ^ n - (1 + r) ^ j) / ((1 + r) ^ n - 1) * r := by
      ring
    have hmin : min (L * (r * (1 + r) ^ n) / ((1 + r) ^ n - 1) -
          L * ((1 + r) ^ n - (1 + r) ^ j) / ((1 + r) ^ n - 1) * r)
        (L * ((1 + r) ^ n - (1 + r) ^ j) / ((1 + r) ^ n - 1)) =
        L * (r * (1 + r) ^ n) / ((1 + r) ^ n - 1) -
          L * ((1 + r) ^ n - (1 + r) ^ j) / ((1 + r) ^ n - 1) * r := by
      apply min_eq_left
      linarith
    rw [hstep, hmin, ← hq]
    ring

theorem iterate_closed {r L : ℚ} (hr : 0 < r) (hL : 0 ≤ L) {n : ℕ}
    (hn : 1 ≤ n) (m : ℕ) :
    m ≤ n →
      (monthStep (L * (r * (1 + r) ^ n) / ((1 + r) ^ n - 1)) r)^[m] L =
        L * ((1 + r) ^ n - (1 + r) ^ m) / ((1 + r) ^ n - 1) := by
  have hq1 : (1 : ℚ) < 1 + r := by linarith
  have hd : 0 < (1 + r) ^ n - 1 := by
    have := one_lt_pow₀ hq1 (by omega : n ≠ 0)
    linarith
  induction m with
  | zero =>
    intro _
    rw [Function.iterate_zero_apply, pow_zero, mul_div_assoc,
      div_self (ne_of_gt hd), mul_one]
  | succ m ih =>
    intro hm
    rw [Function.iterate_succ_apply', ih (by omega)]
    exact monthStep_closed hr hL hn m (by omega)

theorem monthlyMortgage_pos_rate (i : Inputs)
    (hr : monthlyInterestRate i ≠ 0) :
    monthlyMortgage i =
      loanAmount i * (monthlyInterestRate i *
          (1 + monthlyInterestRate i) ^ numberOfPayments i) /
        ((1 + monthlyInterestRate i) ^ numberOfPayments i - 1) := by
  unfold monthlyMortgage
  rw [if_neg hr]

theorem sim_balance (i : Inputs) (y : ℕ) :
    (simState i y).remainingLoanBalance =
      (monthStep (monthlyMortgage i) (monthlyInterestRate i))^[12 * y]
        (loanAmount i) := by
  induction y with
  | zero => rfl
  | succ y ih =>
    rw [simState_succ]
    simp only [yearStep]
    rw [monthLoop_snd, ih, ← Function.iterate_add_apply]
    congr 1
    omega

/-- C5: under the spec's input preconditions (`homePrice ≥ 0`,
`downPaymentPercent ≤ 100`, `interestRate ≥ 0`, `loanTerm ≥ 1`), the
remaining loan balance is nonnegative at every monthly step and
non-increasing from month to month, and the year-end balance stored in
the simulation state is exactly the 12·y-fold monthly step; moreover,
given a positive interest rate and `yearsToCompare ≥ loanTerm`, the
balance is exactly 0 at `loanTerm` years and stays 0 through
`yearsToCompare`. -/
theorem c5_balance_invariants (i : Inputs) (hhp : 0 ≤ i.homePrice)
    (hdp : i.downPaymentPercent ≤ 100) (hir : 0 ≤ i.interestRate)
    (hlt : 1 ≤ i.loanTerm) :
    (∀ m : ℕ,
      0 ≤ (monthStep (monthlyMortgage i) (monthlyInterestRate i))^[m]
        (loanAmount i) ∧
      (monthStep (monthlyMortgage i) (monthlyInterestRate i))^[m + 1]
          (loanAmount i) ≤
        (monthStep (monthlyMortgage i) (monthlyInterestRate i))^[m]
          (loanAmount i)) ∧
    (∀ y : ℕ, (simState i y).remainingLoanBalance =
      (monthStep (monthlyMortgage i) (monthlyInterestRate i))^[12 * y]
        (loanAmount i)) ∧
    (0 < i.interestRate → i.loanTerm ≤ i.yearsToCompare →
      (simState i i.loanTerm).remainingLoanBalance = 0 ∧
      (simState i i.yearsToCompare).remainingLoanBalance = 0) := by
  have hrge : 0 ≤ monthlyInterestRate i := by
    unfold monthlyInterestRate
    exact div_nonneg (div_nonneg hir (by norm_num)) (by norm_num)
  have hL : 0 ≤ loanAmount i := by
    unfold loanAmount downPayment
    have h1 : i.homePrice * i.downPaymentPercent ≤ i.homePrice * 100 :=
      mul_le_mul_of_nonneg_left hdp hhp
    linarith
  have hn : 1 ≤ numberOfPayments i := by
    unfold numberOfPayments
    omega
  have hM : loanAmount i * monthlyInterestRate i ≤ monthlyMortgage i := by
    rcases eq_or_lt_of_le hrge with hr0 | hr
    · unfold monthlyMortgage
      rw [if_pos hr0.symm, ← hr0, mul_zero]
      exact div_nonneg hL (by positivity)
    · have hq1 : (1 : ℚ) < 1 + monthlyInterestRate i := by linarith
      have hd : 0 < (1 + monthlyInterestRate i) ^ numberOfPayments i - 1 := by
        have := one_lt_pow₀ hq1 (by omega : numberOfPayments i ≠ 0)
        linarith
      rw [monthlyMortgage_pos_rate i (ne_of_gt hr)]
      have heq : loanAmount i * (monthlyInterestRate i *
            (1 + monthlyInterestRate i) ^ numberOfPayments i) /
            ((1 + monthlyInterestRate i) ^ numberOfPayments i - 1) -
          loanAmount i * monthlyInterestRate i =
          loanAmount i * monthlyInterestRate i /
            ((1 + monthlyInterestRate i) ^ numberOfPayments i - 1) := by
        field_simp
        ring
      have hpos : 0 ≤ loanAmount i * monthlyInterestRate i /
          ((1 + monthlyInterestRate i) ^ numberOfPayments i - 1) :=
        div_nonneg (mul_nonneg hL hr.le) hd.le
      linarith
  refine ⟨?_, sim_balance i, ?_⟩
  · intro m
    have hb := iterate_bal_bounds hrge hL hM m
    refine ⟨hb.1, ?_⟩
    rw [Function.iterate_succ_apply']
    have hMb : ((monthStep (monthlyMortgage i)
          (monthlyInterestRate i))^[m] (loanAmount i)) *
        monthlyInterestRate i ≤ monthlyMortgage i :=
      le_trans (mul_le_mul_of_nonneg_right hb.2 hrge) hM
    exact (monthStep_bounds hMb hb.1).2
  · intro hirpos hY
    have hr : 0 < monthlyInterestRate i := by
      unfold monthlyInterestRate
      exact div_pos (div_pos hirpos (by norm_num)) (by norm_num)
    have hpay : (monthStep (monthlyMortgage i)
          (monthlyInterestRate i))^[numberOfPayments i] (loanAmount i) = 0 := by
      rw [monthlyMortgage_pos_rate i (ne_of_gt hr),
        iterate_closed hr hL hn (numberOfPayments i) le_rfl]
      simp
    constructor
    · rw [sim_balance]
      have hidx : 12 * i.loanTerm = numberOfPayments i := by
        unfold numberOfPayments
        omega
      rw [hidx]
      exact hpay
    · rw [sim_balance]
      obtain ⟨k, hk⟩ : ∃ k, 12 * i.yearsToCompare = k + numberOfPayments i :=
        ⟨12 * i.yearsToCompare - numberOfPayments i, by
          unfold numberOfPayments
          omega⟩
      rw [hk, Function.iterate_add_apply, hpay,
        Function.iterate_fixed (monthStep_nonpos le_rfl)]

/-- C5 witness: a one-year loan at a 100% monthly rate on a 100-unit
principal is paid off exactly at the end of year 1 (= the loan term). -/
theorem c5_witness : (simState exRate exRate.loanTerm).remainingLoanBalance = 0 :=
  ((c5_balance_invariants exRate (by norm_num [exRate]) (by norm_num [exRate])
    (by norm_num [exRate]) (by norm_num [exRate])).2.2 (by norm_num [exRate])
    (by norm_num [exRate])).1

end RentOrMortgage
